import Mathlib

/-!
Shallow embedding of the MongoDB wire-protocol decoder and transaction
correlator of MGDIS/packetbeat (`protos/mongodb/mongodb.go` together with the
type/constant declarations of the accompanying file).  Go maps are embedded as
association lists with unique keys, Go `time.Time` values as `Int` nanosecond
timestamps, Go machine integers as `Int`/`Nat` with explicit wrap where the
source converts (the `int32` cast on the response time), and the `time.Timer`
mechanism as an explicit list of armed timers carrying the captured
transaction value.
-/

/-- Values stored in a `common.MapStr` (Go `map[string]interface{}`): the
concrete payloads the decoder extracts are strings and numbers, so a small
tagged type suffices for the correlation logic, which never inspects them. -/
inductive MVal where
  | vStr (s : String)
  | vInt (n : Int)
deriving DecidableEq

namespace common

/-- `common.TcpTuple`: connection identity (source/destination IP and port).
`Hashable()` is an injective encoding of the tuple, so the correlation key is
embedded as the tuple itself. -/
structure TcpTuple where
  Src_ip : String
  Src_port : Nat
  Dst_ip : String
  Dst_port : Nat
deriving DecidableEq

/-- `common.CmdlineTuple`: resolved process names for the two endpoints. -/
structure CmdlineTuple where
  Src : String
  Dst : String
deriving DecidableEq

/-- `common.Endpoint` as populated by `receivedMongodbRequest`. -/
structure Endpoint where
  Ip : String
  Port : Nat
  Proc : String
deriving DecidableEq

/-- `common.MapStr` (`map[string]interface{}`) as an association list;
insertion replaces the binding of an existing key. -/
abbrev MapStr := List (String × MVal)

end common

/-- Lookup in a `MapStr` (first binding of the key, unique in well-formed maps). -/
def mapGet (m : common.MapStr) (k : String) : Option MVal :=
  match m with
  | [] => none
  | (k', v) :: rest => if k' = k then some v else mapGet rest k

/-- Go map assignment `m[k] = v`: replace the binding if present, else add it. -/
def mapSet (m : common.MapStr) (k : String) (v : MVal) : common.MapStr :=
  match m with
  | [] => [(k, v)]
  | (k', v') :: rest => if k' = k then (k, v) :: rest else (k', v') :: mapSet rest k v

/-- Left-biased option choice, used to state overlay properties of merged maps. -/
def orOpt (a b : Option MVal) : Option MVal :=
  match a with
  | some v => some v
  | none => b

/-- The merge loop of `receivedMongodbResponse`:
`for k, v := range extra { base[k] = v }`. -/
def mergeEvents (base extra : common.MapStr) : common.MapStr :=
  extra.foldl (fun m kv => mapSet m kv.1 kv.2) base

/-- `MongodbMessage`: one decoded wire-protocol message. -/
structure MongodbMessage where
  Ts : Int
  TcpTuple : common.TcpTuple
  CmdlineTuple : common.CmdlineTuple
  Direction : Nat
  IsResponse : Bool
  ExpectsResponse : Bool
  messageLength : Int
  requestId : Int
  responseTo : Int
  opCode : String
  method : String
  error : String
  event : common.MapStr
deriving DecidableEq

/-- `MongodbStream`: the per-direction stream buffer.  The `message` pointer is
always populated at the program points embedded here (both creation sites set
it), so it is embedded as a plain field. -/
structure MongodbStream where
  tcptuple : common.TcpTuple
  data : List Nat
  parseOffset : Int
  bytesReceived : Int
  message : MongodbMessage
deriving DecidableEq

/-- `MongodbTransaction`: one request/response pairing.  `timer` holds the
identifier of the armed `time.Timer`, if any. -/
structure MongodbTransaction where
  Type_ : String
  tuple : common.TcpTuple
  cmdline : common.CmdlineTuple
  Src : common.Endpoint
  Dst : common.Endpoint
  ResponseTime : Int
  Ts : Int
  JsTs : Int
  ts : Int
  BytesOut : Int
  BytesIn : Int
  timer : Option Nat
  Mongodb : Option common.MapStr
  event : common.MapStr
  method : String
  error : String
deriving DecidableEq

/-- `TransactionsHashSize = 2 ^ 16`: Go `^` is bitwise xor, so this is 18
(initial map capacity only; it has no semantic effect). -/
def TransactionsHashSize : Nat := Nat.xor 2 16

/-- `TransactionTimeout = 10 * 1e9`: nanoseconds of the timeout duration
passed to `time.AfterFunc`. -/
def TransactionTimeout : Int := 10 * 1000000000

/-- `OpCodes`: the fixed numeric-to-name opcode table of the source file. -/
def OpCodes : List (Int × String) :=
  [(1, "OP_REPLY"), (1000, "OP_MSG"), (2001, "OP_UPDATE"), (2002, "OP_INSERT"),
   (2003, "RESERVED"), (2004, "OP_QUERY"), (2005, "OP_GET_MORE"),
   (2006, "OP_DELETE"), (2007, "OP_KILL_CURSORS")]

/-- Resolve a numeric opcode through the `OpCodes` table. -/
def resolveOpCode (code : Int) : Option String :=
  (OpCodes.find? (fun p => decide (p.1 = code))).map Prod.snd

/-- Modelled from the spec: numeric tag of the reversed flow direction from
the external `tcp` package (not under `src/`); its concrete value is
immaterial to every claim, only the equality test in
`receivedMongodbRequest` uses it. -/
def TcpDirectionReverse : Nat := 0

/-- Modelled from the spec: `tcp.TCP_MAX_DATA_IN_STREAM`, the "fixed maximum"
pending-byte ceiling from the external `tcp` package (not under `src/`).  The
claims depend only on it being a fixed constant. -/
def TCP_MAX_DATA_IN_STREAM : Nat := 10 * 1048576

/-- A freshly allocated `&MongodbMessage{Ts: ts}` (all other fields zero). -/
def emptyMessage (ts : Int) : MongodbMessage :=
  { Ts := ts
    TcpTuple := { Src_ip := "", Src_port := 0, Dst_ip := "", Dst_port := 0 }
    CmdlineTuple := { Src := "", Dst := "" }
    Direction := 0, IsResponse := false, ExpectsResponse := false
    messageLength := 0, requestId := 0, responseTo := 0, opCode := ""
    method := "", error := "", event := [] }

/-- `PrepareForNewMessage`: drop the consumed message's bytes and start a new
in-progress message carrying the completed message's timestamp. -/
def MongodbStream.PrepareForNewMessage (stream : MongodbStream) : MongodbStream :=
  { stream with
    data := stream.data.drop stream.message.messageLength.toNat
    message := emptyMessage stream.message.Ts }

/-- Lines 69-83 of `Parse`: per-direction buffer creation / append with the
pending-byte ceiling.  `none` models the direction slot being set to `nil`
(state discarded); the returned stream is the one the message loop of `Parse`
then consumes. -/
def parseAppendData (slot : Option MongodbStream) (tcptuple : common.TcpTuple)
    (payload : List Nat) (ts : Int) : Option MongodbStream :=
  match slot with
  | none =>
      some { tcptuple := tcptuple, data := payload, parseOffset := 0,
             bytesReceived := 0, message := emptyMessage ts }
  | some s =>
      let newData := s.data ++ payload
      if TCP_MAX_DATA_IN_STREAM < newData.length then none
      else some { s with data := newData }

/-- The record handed to the external publisher sink.  `publishTransaction`
builds a `common.MapStr` with exactly these keys; the fixed-key map is
embedded as a structure.  Status strings are modelled from the spec
(`common.OK_STATUS` / `common.ERROR_STATUS` live outside `src/`). -/
structure PublishedEvent where
  type_ : String
  status : String
  mongodb : common.MapStr
  method : String
  query : String
  responsetime : Int
  bytes_in : Int
  bytes_out : Int
  timestamp : Int
  src : common.Endpoint
  dst : common.Endpoint
deriving DecidableEq

/-- Correlator state: the `Mongodb` struct's `transactionsMap` and `results`
channel, together with the ambient timer mechanism (armed `time.AfterFunc`
timers, each carrying its duration and the captured transaction value) and
the warnings emitted via `logp.Warn`.  `results = none` models a nil results
channel; the events already sent on the channel are accumulated in the list. -/
structure MongodbState where
  transactionsMap : List (common.TcpTuple × MongodbTransaction)
  results : Option (List PublishedEvent)
  armed : List (Nat × Int × MongodbTransaction)
  warnings : List String
  nextTimer : Nat
deriving DecidableEq

/-- Go map lookup `transactionsMap[tuple.Hashable()]` (`nil` when absent). -/
def lookupTrans (m : List (common.TcpTuple × MongodbTransaction))
    (k : common.TcpTuple) : Option MongodbTransaction :=
  match m with
  | [] => none
  | (k', t) :: rest => if k' = k then some t else lookupTrans rest k

/-- Go map store `transactionsMap[k] = t`: replace the entry if the key is
present, else add it. -/
def updateKey (m : List (common.TcpTuple × MongodbTransaction))
    (k : common.TcpTuple) (t : MongodbTransaction) :
    List (common.TcpTuple × MongodbTransaction) :=
  match m with
  | [] => [(k, t)]
  | (k', t') :: rest => if k' = k then (k, t) :: rest else (k', t') :: updateKey rest k t

/-- Go map `delete(transactionsMap, k)`. -/
def deleteKey (m : List (common.TcpTuple × MongodbTransaction))
    (k : common.TcpTuple) : List (common.TcpTuple × MongodbTransaction) :=
  m.filter (fun p => !(decide (p.1 = k)))

/-- The Go `int32(...)` conversion: reduce into `[-2^31, 2^31)` by wrapping
modulo `2^32`. -/
def int32 (x : Int) : Int :=
  (x + 2147483648).emod 4294967296 - 2147483648

/-- The state after `mongodb.Init` with a results channel attached. -/
def initState : MongodbState :=
  { transactionsMap := [], results := some [], armed := [], warnings := [], nextTimer := 0 }

/-- Source/destination endpoints of a request, swapped when the message
traveled in the reverse direction (`msg.Direction == tcp.TcpDirectionReverse`). -/
def requestEndpoints (msg : MongodbMessage) : common.Endpoint × common.Endpoint :=
  let src : common.Endpoint :=
    { Ip := msg.TcpTuple.Src_ip, Port := msg.TcpTuple.Src_port, Proc := msg.CmdlineTuple.Src }
  let dst : common.Endpoint :=
    { Ip := msg.TcpTuple.Dst_ip, Port := msg.TcpTuple.Dst_port, Proc := msg.CmdlineTuple.Dst }
  if msg.Direction = TcpDirectionReverse then (dst, src) else (src, dst)

/-- The field mutations `receivedMongodbRequest` performs on the (new or
reused) transaction: `Mongodb`, `event`, `method`, `cmdline`, `ts`, `Ts`
(microsecond resolution, `UnixNano() / 1000`), `JsTs`, `Src`/`Dst`, and
finally the freshly armed timer. -/
def requestTrans (base : MongodbTransaction) (msg : MongodbMessage) (tid : Nat) :
    MongodbTransaction :=
  { base with
    Mongodb := some []
    event := msg.event
    method := msg.method
    cmdline := msg.CmdlineTuple
    ts := msg.Ts
    Ts := msg.Ts.tdiv 1000
    JsTs := msg.Ts
    Src := (requestEndpoints msg).1
    Dst := (requestEndpoints msg).2
    timer := some tid }

/-- A fresh `&MongodbTransaction{Type: "mongodb", tuple: tuple}` (remaining
fields at their Go zero values). -/
def newTransaction (tuple : common.TcpTuple) : MongodbTransaction :=
  { Type_ := "mongodb", tuple := tuple, cmdline := { Src := "", Dst := "" }
    Src := { Ip := "", Port := 0, Proc := "" }, Dst := { Ip := "", Port := 0, Proc := "" }
    ResponseTime := 0, Ts := 0, JsTs := 0, ts := 0, BytesOut := 0, BytesIn := 0
    timer := none, Mongodb := none, event := [], method := "", error := "" }

/-- The transaction `receivedMongodbRequest` mutates: the existing entry for
the connection, or a fresh one inserted into the table. -/
def requestBase (st : MongodbState) (msg : MongodbMessage) : MongodbTransaction :=
  match lookupTrans st.transactionsMap msg.TcpTuple with
  | some t => t
  | none => newTransaction msg.TcpTuple

/-- The `logp.Warn` fired when a second request finds an open transaction. -/
def requestWarnings (st : MongodbState) (msg : MongodbMessage) : List String :=
  match lookupTrans st.transactionsMap msg.TcpTuple with
  | some t =>
      if t.Mongodb.isSome then
        st.warnings ++ ["Two requests without a Response. Dropping old request"]
      else st.warnings
  | none => st.warnings

/-- `if trans.timer != nil { trans.timer.Stop() }`: cancel the outstanding
timer, if any, removing it from the armed set. -/
def stopTimer (armed : List (Nat × Int × MongodbTransaction)) (timer : Option Nat) :
    List (Nat × Int × MongodbTransaction) :=
  match timer with
  | some tid => armed.filter (fun a => !(decide (a.1 = tid)))
  | none => armed

/-- `receivedMongodbRequest`: look up (or create) the connection's
transaction, warn when a request is already open, overwrite the stored data
with this request's data, stop any outstanding timer, and arm a fresh
`TransactionTimeout` timer capturing the stored transaction. -/
def receivedMongodbRequest (st : MongodbState) (msg : MongodbMessage) : MongodbState :=
  let trans := requestTrans (requestBase st msg) msg st.nextTimer
  { st with
    transactionsMap := updateKey st.transactionsMap msg.TcpTuple trans
    warnings := requestWarnings st msg
    armed := stopTimer st.armed (requestBase st msg).timer
             ++ [(st.nextTimer, TransactionTimeout, trans)]
    nextTimer := st.nextTimer + 1 }

/-- `expireTransaction`: body of the armed timer's callback — delete the
captured transaction's connection key from the current table.  No event is
published. -/
def expireTransaction (st : MongodbState) (trans : MongodbTransaction) : MongodbState :=
  { st with transactionsMap := deleteKey st.transactionsMap trans.tuple }

/-- Firing of an armed timer: the timer is consumed and its callback
`expireTransaction` runs on the transaction captured when it was armed. -/
def fireTimer (st : MongodbState) (tid : Nat) : MongodbState :=
  match st.armed.find? (fun a => decide (a.1 = tid)) with
  | none => st
  | some a =>
      expireTransaction
        { st with armed := st.armed.filter (fun b => !(decide (b.1 = tid))) } a.2.2

/-- The publisher record built by `publishTransaction`.  Note that a nonempty
`error` is first recorded into the transaction's event map
(`t.event["error"] = t.error`) and the `query` summary reads the (possibly
augmented) map's `fullCollectionName` through a string type assertion
defaulting to the empty string. -/
def publishEvent (t : MongodbTransaction) : PublishedEvent :=
  let eventMap := if t.error = "" then t.event else mapSet t.event "error" (MVal.vStr t.error)
  let status := if t.error = "" then "OK" else "ERROR"
  let fullCollectionName := match mapGet eventMap "fullCollectionName" with
    | some (MVal.vStr s) => s
    | _ => ""
  { type_ := "mongodb"
    status := status
    mongodb := eventMap
    method := t.method
    query := t.method ++ " " ++ fullCollectionName
    responsetime := t.ResponseTime
    bytes_in := t.BytesIn.emod 18446744073709551616
    bytes_out := t.BytesOut.emod 18446744073709551616
    timestamp := t.ts
    src := t.Src
    dst := t.Dst }

/-- `publishTransaction`: drop the record when no results sink is attached,
else send it. -/
def publishTransaction (st : MongodbState) (t : MongodbTransaction) : MongodbState :=
  match st.results with
  | none => st
  | some evs => { st with results := some (evs ++ [publishEvent t]) }

/-- The transaction as completed by a response: merged event map (response
keys overwrite), recorded error, and the millisecond-truncated response time
narrowed through Go's `int32` conversion. -/
def respTrans (trans : MongodbTransaction) (msg : MongodbMessage) : MongodbTransaction :=
  { trans with
    event := mergeEvents trans.event msg.event
    error := msg.error
    ResponseTime := int32 ((msg.Ts - trans.ts).tdiv 1000000) }

/-- `receivedMongodbResponse`: discard orphan responses (absent entry, or an
entry whose request was not received), otherwise merge, publish, delete the
entry and stop its timer. -/
def receivedMongodbResponse (st : MongodbState) (msg : MongodbMessage) : MongodbState :=
  match lookupTrans st.transactionsMap msg.TcpTuple with
  | none => { st with warnings := st.warnings ++ ["Response from unknown transaction. Ignoring."] }
  | some t0 =>
    match t0.Mongodb with
    | none => { st with warnings := st.warnings ++ ["Response from unknown transaction. Ignoring."] }
    | some _ =>
      let tr := respTrans t0 msg
      let st1 := publishTransaction st tr
      let st2 := { st1 with transactionsMap := deleteKey st1.transactionsMap tr.tuple }
      match tr.timer with
      | some tid => { st2 with armed := st2.armed.filter (fun a => !(decide (a.1 = tid))) }
      | none => st2

/-- `handleMongodb`: dispatch a decoded message to the request or response
path of the correlator. -/
def handleMongodb (st : MongodbState) (m : MongodbMessage) : MongodbState :=
  if m.IsResponse then receivedMongodbResponse st m else receivedMongodbRequest st m

/-- Outcomes of one decode attempt, per the spec's Wire Message Decoder
contract. -/
inductive ParseResult where
  | NeedMoreData
  | Malformed
  | Complete (consumed : Nat)
deriving DecidableEq

/-- Little-endian signed 32-bit read at `off` (bytes beyond the end read as
zero; callers guard the length). -/
def readInt32LE (data : List Nat) (off : Nat) : Int :=
  let b := fun i => (data.getD (off + i) 0) % 256
  let u := b 0 + 256 * b 1 + 65536 * b 2 + 16777216 * b 3
  if u < 2147483648 then (u : Int) else (u : Int) - 4294967296

/-- Modelled from the spec: the header phase of the Wire Message Decoder
(`mongodbMessageParser`, whose source file is not under `src/`; only its
callers and the `OpCodes` table are).  Per the spec: fewer than the fixed
16-byte header is `NeedMoreData`; the opcode must resolve via the fixed
table or the message is malformed, and the reserved value 2003 is likewise
`Malformed`; a declared length that underflows the header size is
`Malformed`; fewer available bytes than the declared length is
`NeedMoreData`; otherwise the message completes consuming exactly
`messageLength` bytes (body decode abstracted). -/
def wireMessageDecode (data : List Nat) : ParseResult :=
  if data.length < 16 then ParseResult.NeedMoreData
  else
    let msgLen := readInt32LE data 0
    let code := readInt32LE data 12
    match resolveOpCode code with
    | none => ParseResult.Malformed
    | some name =>
      if name = "RESERVED" then ParseResult.Malformed
      else if msgLen < 16 then ParseResult.Malformed
      else if data.length < msgLen.toNat then ParseResult.NeedMoreData
      else ParseResult.Complete msgLen.toNat

theorem mapGet_mapSet_self (m : common.MapStr) (k : String) (v : MVal) :
    mapGet (mapSet m k v) k = some v := by
  induction m with
  | nil => simp [mapSet, mapGet]
  | cons p rest ih =>
    obtain ⟨k', v'⟩ := p
    by_cases h : k' = k
    · simp [mapSet, mapGet, h]
    · simp [mapSet, mapGet, h, ih]

theorem mapGet_mapSet_ne (m : common.MapStr) (k k' : String) (v : MVal)
    (h : k' ≠ k) : mapGet (mapSet m k v) k' = mapGet m k' := by
  have hk : k ≠ k' := fun hke => h hke.symm
  induction m with
  | nil => simp [mapSet, mapGet, hk]
  | cons p rest ih =>
    obtain ⟨k0, v0⟩ := p
    by_cases h0 : k0 = k
    · subst h0
      simp [mapSet, mapGet, hk]
    · simp [mapSet, mapGet, h0, ih]

theorem mapGet_mergeEvents_of_notMem (base extra : common.MapStr) (k : String)
    (h : k ∉ extra.map Prod.fst) :
    mapGet (mergeEvents base extra) k = mapGet base k := by
  induction extra generalizing base with
  | nil => rfl
  | cons p rest ih =>
    obtain ⟨k0, v0⟩ := p
    simp only [List.map_cons, List.mem_cons] at h
    push_neg at h
    have : mergeEvents base ((k0, v0) :: rest) = mergeEvents (mapSet base k0 v0) rest := rfl
    rw [this, ih _ h.2, mapGet_mapSet_ne _ _ _ _ h.1]

/-- Overlay property of the response-over-request merge: for event maps with
unique keys (the Go map invariant), a key resolves to the response's binding
when present, else the request's. -/
theorem mapGet_mergeEvents (base extra : common.MapStr) (k : String)
    (hnd : (extra.map Prod.fst).Nodup) :
    mapGet (mergeEvents base extra) k = orOpt (mapGet extra k) (mapGet base k) := by
  induction extra generalizing base with
  | nil => rfl
  | cons p rest ih =>
    obtain ⟨k0, v0⟩ := p
    simp only [List.map_cons, List.nodup_cons] at hnd
    have hstep : mergeEvents base ((k0, v0) :: rest) = mergeEvents (mapSet base k0 v0) rest := rfl
    by_cases h : k0 = k
    · subst h
      rw [hstep, mapGet_mergeEvents_of_notMem _ _ _ hnd.1, mapGet_mapSet_self]
      simp [mapGet, orOpt]
    · rw [hstep, ih _ hnd.2]
      have : mapGet ((k0, v0) :: rest) k = mapGet rest k := by simp [mapGet, h]
      rw [this, mapGet_mapSet_ne _ _ _ _ (fun hk => h hk.symm)]

theorem lookupTrans_updateKey_self (m : List (common.TcpTuple × MongodbTransaction))
    (k : common.TcpTuple) (t : MongodbTransaction) :
    lookupTrans (updateKey m k t) k = some t := by
  induction m with
  | nil => simp [updateKey, lookupTrans]
  | cons p rest ih =>
    obtain ⟨k', t'⟩ := p
    by_cases h : k' = k
    · simp [updateKey, lookupTrans, h]
    · simp [updateKey, lookupTrans, h, ih]

theorem lookupTrans_deleteKey_self (m : List (common.TcpTuple × MongodbTransaction))
    (k : common.TcpTuple) : lookupTrans (deleteKey m k) k = none := by
  induction m with
  | nil => simp [deleteKey, lookupTrans]
  | cons p rest ih =>
    obtain ⟨k', t'⟩ := p
    by_cases h : k' = k
    · simpa [deleteKey, List.filter, h] using ih
    · simpa [deleteKey, List.filter, h, lookupTrans] using ih

theorem keys_updateKey (m : List (common.TcpTuple × MongodbTransaction))
    (k : common.TcpTuple) (t : MongodbTransaction) :
    (updateKey m k t).map Prod.fst =
      if k ∈ m.map Prod.fst then m.map Prod.fst else m.map Prod.fst ++ [k] := by
  induction m with
  | nil => simp [updateKey]
  | cons p rest ih =>
    obtain ⟨k', t'⟩ := p
    by_cases hk : k' = k
    · subst hk
      simp [updateKey]
    · simp only [updateKey, hk, if_false, List.map_cons, ih, List.mem_cons, Ne.symm hk,
        false_or]
      by_cases hm : k ∈ rest.map Prod.fst
      · simp [hm]
      · simp [hm]

theorem nodupKeys_updateKey (m : List (common.TcpTuple × MongodbTransaction))
    (k : common.TcpTuple) (t : MongodbTransaction)
    (h : (m.map Prod.fst).Nodup) : ((updateKey m k t).map Prod.fst).Nodup := by
  rw [keys_updateKey]
  by_cases hk : k ∈ m.map Prod.fst
  · simpa [hk] using h
  · simp only [hk, if_false]
    refine List.nodup_append.2 ⟨h, List.nodup_singleton _, ?_⟩
    intro a ha hak
    rw [List.mem_singleton] at hak
    exact hk (hak ▸ ha)

theorem nodupKeys_deleteKey (m : List (common.TcpTuple × MongodbTransaction))
    (k : common.TcpTuple) (h : (m.map Prod.fst).Nodup) :
    ((deleteKey m k).map Prod.fst).Nodup :=
  h.sublist ((List.filter_sublist m).map Prod.fst)

theorem lookupTrans_mem (m : List (common.TcpTuple × MongodbTransaction))
    (k : common.TcpTuple) (t : MongodbTransaction)
    (h : lookupTrans m k = some t) : (k, t) ∈ m := by
  induction m with
  | nil => simp [lookupTrans] at h
  | cons p rest ih =>
    obtain ⟨k', t'⟩ := p
    by_cases hk : k' = k
    · subst hk
      simp [lookupTrans] at h
      rw [← h]
      exact List.mem_cons_self _ _
    · simp only [lookupTrans, hk, if_false] at h
      exact List.mem_cons_of_mem _ (ih h)

theorem receivedMongodbRequest_results (st : MongodbState) (msg : MongodbMessage) :
    (receivedMongodbRequest st msg).results = st.results := rfl

theorem receivedMongodbRequest_lookup (st : MongodbState) (msg : MongodbMessage) :
    lookupTrans (receivedMongodbRequest st msg).transactionsMap msg.TcpTuple =
      some (requestTrans (requestBase st msg) msg st.nextTimer) :=
  lookupTrans_updateKey_self _ _ _

theorem requestBase_tuple (st : MongodbState) (msg : MongodbMessage)
    (hinv : ∀ p ∈ st.transactionsMap, p.2.tuple = p.1) :
    (requestBase st msg).tuple = msg.TcpTuple := by
  unfold requestBase
  cases h : lookupTrans st.transactionsMap msg.TcpTuple with
  | none => rfl
  | some t => exact hinv (msg.TcpTuple, t) (lookupTrans_mem _ _ _ h)

theorem receivedMongodbResponse_found (st : MongodbState) (msg : MongodbMessage)
    (t0 : MongodbTransaction) (evs : List PublishedEvent) (m0 : common.MapStr)
    (hl : lookupTrans st.transactionsMap msg.TcpTuple = some t0)
    (hm : t0.Mongodb = some m0)
    (hres : st.results = some evs) :
    (receivedMongodbResponse st msg).results =
      some (evs ++ [publishEvent (respTrans t0 msg)]) ∧
    (receivedMongodbResponse st msg).transactionsMap =
      deleteKey st.transactionsMap t0.tuple := by
  unfold receivedMongodbResponse
  rw [hl]
  simp only
  rw [hm]
  simp only [publishTransaction]
  rw [hres]
  have htimer : (respTrans t0 msg).timer = t0.timer := rfl
  cases ht : t0.timer with
  | none => simp [respTrans, ht]
  | some tid => simp [respTrans, ht]

theorem receivedMongodbResponse_orphan (st : MongodbState) (msg : MongodbMessage)
    (h : lookupTrans st.transactionsMap msg.TcpTuple = none) :
    receivedMongodbResponse st msg =
      { st with warnings :=
          st.warnings ++ ["Response from unknown transaction. Ignoring."] } := by
  unfold receivedMongodbResponse
  rw [h]

theorem receivedMongodbResponse_map_cases (st : MongodbState) (msg : MongodbMessage) :
    (receivedMongodbResponse st msg).transactionsMap = st.transactionsMap ∨
    ∃ k, (receivedMongodbResponse st msg).transactionsMap =
      deleteKey st.transactionsMap k := by
  unfold receivedMongodbResponse
  cases hl : lookupTrans st.transactionsMap msg.TcpTuple with
  | none => exact Or.inl rfl
  | some t0 =>
    cases hm : t0.Mongodb with
    | none => left; simp [hm]
    | some m0 =>
      refine Or.inr ⟨t0.tuple, ?_⟩
      simp only [publishTransaction]
      cases hres : st.results with
      | none => cases ht : t0.timer <;> simp [respTrans, ht, hm]
      | some evs => cases ht : t0.timer <;> simp [respTrans, ht, hm]

theorem fireTimer_map_cases (st : MongodbState) (tid : Nat) :
    (fireTimer st tid).transactionsMap = st.transactionsMap ∨
    ∃ k, (fireTimer st tid).transactionsMap = deleteKey st.transactionsMap k := by
  unfold fireTimer
  cases h : st.armed.find? (fun a => decide (a.1 = tid)) with
  | none => exact Or.inl rfl
  | some a => exact Or.inr ⟨a.2.2.tuple, rfl⟩

/-- One correlator event: a decoded request, a decoded response, or the
firing of an armed timeout timer. -/
inductive Step : MongodbState → MongodbState → Prop where
  | request (st : MongodbState) (msg : MongodbMessage) :
      Step st (receivedMongodbRequest st msg)
  | response (st : MongodbState) (msg : MongodbMessage) :
      Step st (receivedMongodbResponse st msg)
  | timeout (st : MongodbState) (tid : Nat) :
      Step st (fireTimer st tid)

/-- States reachable from the freshly initialised correlator. -/
inductive Reachable : MongodbState → Prop where
  | init : Reachable initState
  | step {st st' : MongodbState} : Reachable st → Step st st' → Reachable st'

/-- The correlation table, as a Go map, binds each connection identity at
most once in every reachable state. -/
theorem reachable_nodupKeys (st : MongodbState) (h : Reachable st) :
    (st.transactionsMap.map Prod.fst).Nodup := by
  induction h with
  | init => simp [initState]
  | step hr hs ih =>
    cases hs with
    | request msg => exact nodupKeys_updateKey _ _ _ ih
    | response msg =>
      rcases receivedMongodbResponse_map_cases _ msg with h' | ⟨k, h'⟩
      · rw [h']; exact ih
      · rw [h']; exact nodupKeys_deleteKey _ _ ih
    | timeout tid =>
      rcases fireTimer_map_cases _ tid with h' | ⟨k, h'⟩
      · rw [h']; exact ih
      · rw [h']; exact nodupKeys_deleteKey _ _ ih

/-- Concrete connection identity used by the concrete instances below. -/
def sampleTuple : common.TcpTuple :=
  { Src_ip := "10.0.0.1", Src_port := 34567, Dst_ip := "10.0.0.2", Dst_port := 27017 }

/-- Concrete process-name pair used by the concrete instances below. -/
def sampleCmdline : common.CmdlineTuple := { Src := "mongocli", Dst := "mongod" }

/-- A concrete decoded message on `sampleTuple`. -/
def sampleMsg (ts : Int) (isResp : Bool) (method error : String)
    (event : common.MapStr) : MongodbMessage :=
  { Ts := ts, TcpTuple := sampleTuple, CmdlineTuple := sampleCmdline, Direction := 1
    IsResponse := isResp, ExpectsResponse := !isResp, messageLength := 100
    requestId := 1, responseTo := 0
    opCode := if isResp then "OP_REPLY" else "OP_QUERY"
    method := method, error := error, event := event }

/-- Claim C7: a response arriving on a connection that has no open
transaction in the correlation table is discarded: no event is published and
the correlation table is left unchanged. -/
theorem mongodb_c7 (st : MongodbState) (msg : MongodbMessage)
    (h : lookupTrans st.transactionsMap msg.TcpTuple = none) :
    (receivedMongodbResponse st msg).results = st.results ∧
    (receivedMongodbResponse st msg).transactionsMap = st.transactionsMap := by
  rw [receivedMongodbResponse_orphan st msg h]
  exact ⟨rfl, rfl⟩

/-- Witness for C7 at a concrete orphan response on the fresh correlator. -/
theorem mongodb_c7_witness :
    lookupTrans initState.transactionsMap (sampleMsg 5 true "" "" []).TcpTuple = none ∧
    (receivedMongodbResponse initState (sampleMsg 5 true "" "" [])).results =
      initState.results ∧
    (receivedMongodbResponse initState (sampleMsg 5 true "" "" [])).transactionsMap =
      initState.transactionsMap := by
  refine ⟨rfl, ?_, ?_⟩
  · exact (mongodb_c7 initState (sampleMsg 5 true "" "" []) rfl).1
  · exact (mongodb_c7 initState (sampleMsg 5 true "" "" []) rfl).2

/-- Claim C8: when a message completes, the stream buffer consumes exactly
`messageLength` bytes from the pending data — the remaining buffer is the
untouched suffix past those bytes — and the next in-progress message carries
the completed message's timestamp. -/
theorem mongodb_c8 (s : MongodbStream)
    (h0 : 0 ≤ s.message.messageLength)
    (h1 : s.message.messageLength.toNat ≤ s.data.length) :
    s.PrepareForNewMessage.data = s.data.drop s.message.messageLength.toNat ∧
    s.data = s.data.take s.message.messageLength.toNat ++ s.PrepareForNewMessage.data ∧
    (s.data.take s.message.messageLength.toNat).length = s.message.messageLength.toNat ∧
    s.PrepareForNewMessage.message = emptyMessage s.message.Ts ∧
    s.PrepareForNewMessage.message.Ts = s.message.Ts := by
  refine ⟨rfl, ?_, ?_, rfl, rfl⟩
  · exact (List.take_append_drop _ _).symm
  · rw [List.length_take]
    omega

/-- Concrete stream used by the C8 witness: six pending bytes, current
message of declared length four. -/
def sampleStream : MongodbStream :=
  { tcptuple := sampleTuple, data := [1, 2, 3, 4, 5, 6], parseOffset := 0
    bytesReceived := 0
    message := { emptyMessage 7 with messageLength := 4 } }

/-- Witness for C8 at `sampleStream`. -/
theorem mongodb_c8_witness :
    (0 ≤ sampleStream.message.messageLength ∧
      sampleStream.message.messageLength.toNat ≤ sampleStream.data.length) ∧
    sampleStream.PrepareForNewMessage.data =
      sampleStream.data.drop sampleStream.message.messageLength.toNat ∧
    sampleStream.PrepareForNewMessage.message.Ts = sampleStream.message.Ts :=
  ⟨⟨by decide, by decide⟩,
   (mongodb_c8 sampleStream (by decide) (by decide)).1,
   (mongodb_c8 sampleStream (by decide) (by decide)).2.2.2.2⟩

/-- Claim C10: the pending-byte ceiling is checked only when appending to an
existing direction buffer; the first packet creating the buffer is stored
unconditionally — for every payload, of any size, the created stream retains
exactly that payload for the parse loop. -/
theorem mongodb_c10 (tcptuple : common.TcpTuple) (payload : List Nat) (ts : Int) :
    parseAppendData none tcptuple payload ts =
      some { tcptuple := tcptuple, data := payload, parseOffset := 0,
             bytesReceived := 0, message := emptyMessage ts } := rfl

/-- Claim C5: appending bytes that push an existing direction buffer past the
ceiling discards the entire direction state (`nil` slot), and the next packet
for that direction starts a fresh buffer. -/
theorem mongodb_c5 (s : MongodbStream) (tcptuple : common.TcpTuple)
    (payload : List Nat) (ts : Int)
    (h : TCP_MAX_DATA_IN_STREAM < s.data.length + payload.length) :
    parseAppendData (some s) tcptuple payload ts = none ∧
    ∀ (payload2 : List Nat) (ts2 : Int),
      parseAppendData none tcptuple payload2 ts2 =
        some { tcptuple := tcptuple, data := payload2, parseOffset := 0,
               bytesReceived := 0, message := emptyMessage ts2 } := by
  constructor
  · have hlen : TCP_MAX_DATA_IN_STREAM < (s.data ++ payload).length := by
      rw [List.length_append]
      exact h
    unfold parseAppendData
    simp only []
    rw [if_pos hlen]
  · intro payload2 ts2
    rfl

/-- A buffer one byte past the ceiling, used by the C5 witness. -/
def bigStream : MongodbStream :=
  { tcptuple := sampleTuple, data := List.replicate 10485761 0, parseOffset := 0
    bytesReceived := 0, message := emptyMessage 0 }

/-- Witness for C5: the oversized append is dropped. -/
theorem mongodb_c5_witness :
    TCP_MAX_DATA_IN_STREAM < bigStream.data.length + ([] : List Nat).length ∧
    parseAppendData (some bigStream) sampleTuple [] 0 = none := by
  have h2 : bigStream.data.length = 10485761 := List.length_replicate _ _
  have h : TCP_MAX_DATA_IN_STREAM < bigStream.data.length + ([] : List Nat).length := by
    rw [h2]
    decide
  exact ⟨h, (mongodb_c5 bigStream sampleTuple [] 0 h).1⟩

/-- Claim C4: any 4-byte opcode value that does not resolve to a supported
operation — absent from the fixed table, or the reserved entry 2003 — makes
the decoder report `Malformed`, never `Complete`. -/
theorem mongodb_c4 (data : List Nat) (h16 : 16 ≤ data.length)
    (hbad : resolveOpCode (readInt32LE data 12) = none ∨
            resolveOpCode (readInt32LE data 12) = some "RESERVED") :
    wireMessageDecode data = ParseResult.Malformed ∧
    ∀ n, wireMessageDecode data ≠ ParseResult.Complete n := by
  have hnlt : ¬ data.length < 16 := by omega
  have hmain : wireMessageDecode data = ParseResult.Malformed := by
    unfold wireMessageDecode
    rw [if_neg hnlt]
    simp only []
    rcases hbad with hb | hb
    · rw [hb]
    · rw [hb]
      simp
  refine ⟨hmain, fun n hc => ?_⟩
  rw [hmain] at hc
  exact ParseResult.noConfusion hc

/-- A 16-byte header carrying the reserved opcode 2003. -/
def header2003 : List Nat :=
  [16, 0, 0, 0, 0, 0, 0, 0, 0, 0, 0, 0, 211, 7, 0, 0]

/-- A 16-byte header carrying opcode 9999, absent from the table. -/
def header9999 : List Nat :=
  [16, 0, 0, 0, 0, 0, 0, 0, 0, 0, 0, 0, 15, 39, 0, 0]

/-- Witness for C4 at the concrete opcodes 2003 and 9999. -/
theorem mongodb_c4_witness :
    (16 ≤ header2003.length ∧ readInt32LE header2003 12 = 2003 ∧
      resolveOpCode (readInt32LE header2003 12) = some "RESERVED") ∧
    (16 ≤ header9999.length ∧ readInt32LE header9999 12 = 9999 ∧
      resolveOpCode (readInt32LE header9999 12) = none) ∧
    wireMessageDecode header2003 = ParseResult.Malformed ∧
    wireMessageDecode header9999 = ParseResult.Malformed :=
  ⟨⟨by decide, by decide, by decide⟩, ⟨by decide, by decide, by decide⟩,
   (mongodb_c4 header2003 (by decide) (Or.inr (by decide))).1,
   (mongodb_c4 header9999 (by decide) (Or.inl (by decide))).1⟩

/-- The transaction whose (conceptual) timer already fired: its table entry
was removed, but its callback still holds the captured value. -/
def staleTrans : MongodbTransaction :=
  { newTransaction sampleTuple with Mongodb := some [], method := "find", timer := some 0 }

/-- A distinct, newer transaction stored under the same connection key. -/
def newerTrans : MongodbTransaction :=
  { newTransaction sampleTuple with Mongodb := some [], method := "count", timer := some 1 }

/-- State in which the table binds `sampleTuple` to the newer transaction. -/
def c6State : MongodbState :=
  { transactionsMap := [(sampleTuple, newerTrans)], results := some []
    armed := [(1, TransactionTimeout, newerTrans)], warnings := [], nextTimer := 2 }

/-- Claim C6 evaluated at the failing input: `expireTransaction` deletes by
the captured transaction's connection key without checking that the current
entry is the same transaction, so a stale timeout callback removes a
different, newer transaction stored under the same key.  (When the key is
absent, the deletion is indeed a harmless no-op — first conjunct.) -/
theorem mongodb_c6_bug :
    (expireTransaction { c6State with transactionsMap := [] } staleTrans).transactionsMap
      = [] ∧
    staleTrans ≠ newerTrans ∧
    lookupTrans c6State.transactionsMap sampleTuple = some newerTrans ∧
    lookupTrans (expireTransaction c6State staleTrans).transactionsMap sampleTuple = none := by
  refine ⟨rfl, by decide, rfl, by decide⟩

theorem find?_append_of_none {α : Type} (l1 l2 : List α) (p : α → Bool)
    (h : ∀ x ∈ l1, p x = false) : (l1 ++ l2).find? p = l2.find? p := by
  induction l1 with
  | nil => rfl
  | cons a rest ih =>
    have ha : p a = false := h a (List.mem_cons_self _ _)
    rw [List.cons_append, List.find?_cons_of_neg _ (by simp [ha]),
      ih (fun x hx => h x (List.mem_cons_of_mem _ hx))]

theorem stopTimer_subset (armed : List (Nat × Int × MongodbTransaction))
    (topt : Option Nat) : ∀ x ∈ stopTimer armed topt, x ∈ armed := by
  cases topt with
  | none => exact fun x hx => hx
  | some tid => exact fun x hx => List.mem_of_mem_filter hx

/-- Claim C3: the timer armed at request time has the fixed ten-second
duration (`10 * 1e9` nanoseconds), and when it fires for an open transaction
that received no response, the transaction is removed from the table and
nothing is published. -/
theorem mongodb_c3 :
    TransactionTimeout = 10 * 1000000000 ∧
    ∀ (st : MongodbState) (req : MongodbMessage),
      (∀ p ∈ st.transactionsMap, p.2.tuple = p.1) →
      (∀ a ∈ st.armed, a.1 < st.nextTimer) →
      ((st.nextTimer, TransactionTimeout,
          requestTrans (requestBase st req) req st.nextTimer) ∈
        (receivedMongodbRequest st req).armed) ∧
      lookupTrans
        (fireTimer (receivedMongodbRequest st req) st.nextTimer).transactionsMap
        req.TcpTuple = none ∧
      (fireTimer (receivedMongodbRequest st req) st.nextTimer).results =
        (receivedMongodbRequest st req).results := by
  refine ⟨rfl, ?_⟩
  intro st req hinv hfresh
  have harm : (receivedMongodbRequest st req).armed =
      stopTimer st.armed (requestBase st req).timer ++
        [(st.nextTimer, TransactionTimeout,
          requestTrans (requestBase st req) req st.nextTimer)] := rfl
  have hfind : (receivedMongodbRequest st req).armed.find?
      (fun a => decide (a.1 = st.nextTimer)) =
      some (st.nextTimer, TransactionTimeout,
        requestTrans (requestBase st req) req st.nextTimer) := by
    rw [harm, find?_append_of_none]
    · simp [List.find?]
    · intro x hx
      have hlt := hfresh x (stopTimer_subset _ _ x hx)
      exact decide_eq_false (by omega)
  have hfire : fireTimer (receivedMongodbRequest st req) st.nextTimer =
      expireTransaction
        { receivedMongodbRequest st req with
          armed := (receivedMongodbRequest st req).armed.filter
            (fun b => !(decide (b.1 = st.nextTimer))) }
        (requestTrans (requestBase st req) req st.nextTimer) := by
    unfold fireTimer
    rw [hfind]
  refine ⟨?_, ?_, ?_⟩
  · rw [harm]
    exact List.mem_append_right _ (List.mem_singleton.2 rfl)
  · rw [hfire]
    have htuple : (requestTrans (requestBase st req) req st.nextTimer).tuple =
        req.TcpTuple := requestBase_tuple st req hinv
    show lookupTrans (deleteKey (receivedMongodbRequest st req).transactionsMap
      (requestTrans (requestBase st req) req st.nextTimer).tuple) req.TcpTuple = none
    rw [htuple]
    exact lookupTrans_deleteKey_self _ _
  · rw [hfire]
    rfl

/-- Concrete request used by the C3 witness. -/
def reqW3 : MongodbMessage :=
  sampleMsg 0 false "find" "" [("fullCollectionName", MVal.vStr "db.users")]

/-- Witness for C3: on the fresh correlator, firing the armed timer of an
unanswered request evicts it and publishes nothing. -/
theorem mongodb_c3_witness :
    TransactionTimeout = 10 * 1000000000 ∧
    ((initState.nextTimer, TransactionTimeout,
        requestTrans (requestBase initState reqW3) reqW3 initState.nextTimer) ∈
      (receivedMongodbRequest initState reqW3).armed) ∧
    lookupTrans
      (fireTimer (receivedMongodbRequest initState reqW3) initState.nextTimer).transactionsMap
      reqW3.TcpTuple = none ∧
    (fireTimer (receivedMongodbRequest initState reqW3) initState.nextTimer).results =
      (receivedMongodbRequest initState reqW3).results := by
  have h := mongodb_c3.2 initState reqW3 (by simp [initState]) (by simp [initState])
  exact ⟨mongodb_c3.1, h.1, h.2.1, h.2.2⟩

theorem int32_eq_self (x : Int) (h0 : 0 ≤ x) (h1 : x < 2147483648) : int32 x = x := by
  unfold int32
  show (x + 2147483648) % 4294967296 - 2147483648 = x
  rw [Int.emod_eq_of_lt (by omega) (by omega)]
  omega

/-- A request followed by a response on the same connection publishes exactly
one record — the completed transaction — and removes the table entry. -/
theorem reqResp_publish (st : MongodbState) (req resp : MongodbMessage)
    (evs : List PublishedEvent)
    (hres : st.results = some evs)
    (ht : resp.TcpTuple = req.TcpTuple)
    (hinv : ∀ p ∈ st.transactionsMap, p.2.tuple = p.1) :
    (receivedMongodbResponse (receivedMongodbRequest st req) resp).results =
      some (evs ++ [publishEvent
        (respTrans (requestTrans (requestBase st req) req st.nextTimer) resp)]) ∧
    lookupTrans
      (receivedMongodbResponse (receivedMongodbRequest st req) resp).transactionsMap
      req.TcpTuple = none := by
  have hl : lookupTrans (receivedMongodbRequest st req).transactionsMap resp.TcpTuple =
      some (requestTrans (requestBase st req) req st.nextTimer) := by
    rw [ht]
    exact receivedMongodbRequest_lookup st req
  have hm : (requestTrans (requestBase st req) req st.nextTimer).Mongodb = some [] := rfl
  have hres1 : (receivedMongodbRequest st req).results = some evs := hres
  obtain ⟨hr, hmap⟩ :=
    receivedMongodbResponse_found (receivedMongodbRequest st req) resp
      (requestTrans (requestBase st req) req st.nextTimer) evs [] hl hm hres1
  refine ⟨hr, ?_⟩
  rw [hmap]
  have htuple : (requestTrans (requestBase st req) req st.nextTimer).tuple =
      req.TcpTuple := requestBase_tuple st req hinv
  rw [htuple]
  exact lookupTrans_deleteKey_self _ _

theorem publishEvent_mongodb (t : MongodbTransaction) :
    (publishEvent t).mongodb =
      if t.error = "" then t.event else mapSet t.event "error" (MVal.vStr t.error) := rfl

/-- Claim C1 (amended): a request followed by a response on the same
connection — whatever direction each traveled — publishes exactly one
record whose field map is the request's fields overlaid by the response's
fields with response values winning on collision, except that a nonempty
response error is additionally recorded under the `"error"` key; the entry
is removed from the table after publication. -/
theorem mongodb_c1 (st : MongodbState) (req resp : MongodbMessage)
    (evs : List PublishedEvent)
    (hres : st.results = some evs)
    (ht : resp.TcpTuple = req.TcpTuple)
    (hinv : ∀ p ∈ st.transactionsMap, p.2.tuple = p.1)
    (hnd : (resp.event.map Prod.fst).Nodup) :
    ∃ ev : PublishedEvent,
      (receivedMongodbResponse (receivedMongodbRequest st req) resp).results =
        some (evs ++ [ev]) ∧
      (∀ k, mapGet ev.mongodb k =
        if resp.error = "" then orOpt (mapGet resp.event k) (mapGet req.event k)
        else if k = "error" then some (MVal.vStr resp.error)
        else orOpt (mapGet resp.event k) (mapGet req.event k)) ∧
      lookupTrans
        (receivedMongodbResponse (receivedMongodbRequest st req) resp).transactionsMap
        req.TcpTuple = none := by
  obtain ⟨hr, hdel⟩ := reqResp_publish st req resp evs hres ht hinv
  refine ⟨_, hr, ?_, hdel⟩
  intro k
  have hev : (respTrans (requestTrans (requestBase st req) req st.nextTimer) resp).event =
      mergeEvents req.event resp.event := rfl
  have herr : (respTrans (requestTrans (requestBase st req) req st.nextTimer) resp).error =
      resp.error := rfl
  rw [publishEvent_mongodb, hev, herr]
  by_cases he : resp.error = ""
  · rw [if_pos he, if_pos he, mapGet_mergeEvents _ _ k hnd]
  · rw [if_neg he, if_neg he]
    by_cases hk : k = "error"
    · subst hk
      rw [if_pos rfl, mapGet_mapSet_self]
    · rw [if_neg hk,
        mapGet_mapSet_ne (mergeEvents req.event resp.event) "error" k
          (MVal.vStr resp.error) hk,
        mapGet_mergeEvents _ _ k hnd]

/-- Concrete request used in the C1 concrete instances. -/
def reqC1 : MongodbMessage := sampleMsg 0 false "count" "" [("a", MVal.vInt 1)]

/-- Concrete error-free response used by the C1 witness. -/
def respC1ok : MongodbMessage :=
  sampleMsg 5000000 true "" "" [("b", MVal.vInt 2), ("a", MVal.vInt 3)]

/-- Concrete response carrying error `"boom"`, used by the C1 counterexample. -/
def respC1 : MongodbMessage := sampleMsg 5000000 true "" "boom" [("b", MVal.vInt 2)]

/-- The `"error"` binding of a published record's field map. -/
def mongodbErrorField (ev : PublishedEvent) : Option MVal := mapGet ev.mongodb "error"

/-- Witness for C1 on the fresh correlator with an error-free response. -/
theorem mongodb_c1_witness :
    initState.results = some [] ∧
    ∃ ev : PublishedEvent,
      (receivedMongodbResponse (receivedMongodbRequest initState reqC1) respC1ok).results =
        some ([] ++ [ev]) ∧
      (∀ k, mapGet ev.mongodb k =
        if respC1ok.error = "" then orOpt (mapGet respC1ok.event k) (mapGet reqC1.event k)
        else if k = "error" then some (MVal.vStr respC1ok.error)
        else orOpt (mapGet respC1ok.event k) (mapGet reqC1.event k)) ∧
      lookupTrans
        (receivedMongodbResponse (receivedMongodbRequest initState reqC1)
          respC1ok).transactionsMap reqC1.TcpTuple = none :=
  ⟨rfl, mongodb_c1 initState reqC1 respC1ok [] rfl rfl (by simp [initState]) (by decide)⟩

/-- Counterexample to C1 as stated: with a response whose error is `"boom"`,
the published field map binds the key `"error"`, which occurs in neither the
request's nor the response's fields — the map is not the plain overlay of
the two field sets. -/
theorem mongodb_c1_counterexample :
    mapGet reqC1.event "error" = none ∧
    mapGet respC1.event "error" = none ∧
    orOpt (mapGet respC1.event "error") (mapGet reqC1.event "error") = none ∧
    ((receivedMongodbResponse (receivedMongodbRequest initState reqC1)
        respC1).results.getD []).map mongodbErrorField = [some (MVal.vStr "boom")] := by
  refine ⟨rfl, rfl, rfl, by decide⟩

/-- Claim C9 (amended): the recorded response time is the millisecond-truncated
timestamp difference narrowed through Go's `int32` conversion; whenever that
millisecond difference lies in `[0, 2^31)` — in particular for a response 5 ms
after its request — it is reproduced exactly and is nonnegative. -/
theorem mongodb_c9 (st : MongodbState) (req resp : MongodbMessage)
    (evs : List PublishedEvent)
    (hres : st.results = some evs)
    (ht : resp.TcpTuple = req.TcpTuple)
    (hinv : ∀ p ∈ st.transactionsMap, p.2.tuple = p.1) :
    ∃ ev : PublishedEvent,
      (receivedMongodbResponse (receivedMongodbRequest st req) resp).results =
        some (evs ++ [ev]) ∧
      ev.responsetime = int32 ((resp.Ts - req.Ts).tdiv 1000000) ∧
      (0 ≤ (resp.Ts - req.Ts).tdiv 1000000 →
        (resp.Ts - req.Ts).tdiv 1000000 < 2147483648 →
        ev.responsetime = (resp.Ts - req.Ts).tdiv 1000000 ∧ 0 ≤ ev.responsetime) := by
  obtain ⟨hr, hdel⟩ := reqResp_publish st req resp evs hres ht hinv
  refine ⟨_, hr, rfl, ?_⟩
  intro h0 h1
  have heq : int32 ((resp.Ts - req.Ts).tdiv 1000000) = (resp.Ts - req.Ts).tdiv 1000000 :=
    int32_eq_self _ h0 h1
  constructor
  · show int32 ((resp.Ts - req.Ts).tdiv 1000000) = (resp.Ts - req.Ts).tdiv 1000000
    exact heq
  · show 0 ≤ int32 ((resp.Ts - req.Ts).tdiv 1000000)
    rw [heq]
    exact h0

/-- Concrete request for the C9 instances. -/
def reqW9 : MongodbMessage := sampleMsg 0 false "count" "" [("count", MVal.vStr "users")]

/-- Concrete response arriving 5 ms after `reqW9`. -/
def respW9 : MongodbMessage :=
  sampleMsg 5000000 true "" "" [("numberReturned", MVal.vInt 1)]

/-- Witness for C9: a response 5 ms after its request yields response time 5. -/
theorem mongodb_c9_witness :
    (respW9.Ts - reqW9.Ts).tdiv 1000000 = 5 ∧
    int32 ((respW9.Ts - reqW9.Ts).tdiv 1000000) = 5 ∧
    ∃ ev : PublishedEvent,
      (receivedMongodbResponse (receivedMongodbRequest initState reqW9) respW9).results =
        some ([] ++ [ev]) ∧
      ev.responsetime = int32 ((respW9.Ts - reqW9.Ts).tdiv 1000000) ∧
      (0 ≤ (respW9.Ts - reqW9.Ts).tdiv 1000000 →
        (respW9.Ts - reqW9.Ts).tdiv 1000000 < 2147483648 →
        ev.responsetime = (respW9.Ts - reqW9.Ts).tdiv 1000000 ∧ 0 ≤ ev.responsetime) :=
  ⟨by decide, by decide,
   mongodb_c9 initState reqW9 respW9 [] rfl rfl (by simp [initState])⟩

/-- Concrete request for the C9 counterexample. -/
def reqC9 : MongodbMessage := sampleMsg 0 false "count" "" []

/-- Concrete response whose timestamp lies `2^31` milliseconds after the
request's. -/
def respC9 : MongodbMessage := sampleMsg 2147483648000000 true "" "" []

/-- Counterexample to C9 as stated: a response later than its request whose
millisecond difference is `2^31` is published with response time
`-2^31` — negative, and different from the truncated difference — because
the source narrows through Go's `int32`. -/
theorem mongodb_c9_counterexample :
    reqC9.Ts ≤ respC9.Ts ∧
    (respC9.Ts - reqC9.Ts).tdiv 1000000 = 2147483648 ∧
    ((receivedMongodbResponse (receivedMongodbRequest initState reqC9)
        respC9).results.getD []).map PublishedEvent.responsetime = [-2147483648] := by
  refine ⟨by decide, by decide, by decide⟩

/-- Claim C2: the correlation table binds each connection identity at most
once in every reachable state; a second request arriving while one is open
replaces the stored data (method, fields, timestamp, process names,
endpoints) with the second request's data and emits the warning, and the
previously armed timer is cancelled (absent from the armed set) while the
fresh timer is armed. -/
theorem mongodb_c2 :
    (∀ st : MongodbState, Reachable st → (st.transactionsMap.map Prod.fst).Nodup) ∧
    (∀ (st : MongodbState) (r1 r2 : MongodbMessage),
      r2.TcpTuple = r1.TcpTuple →
      (∃ t : MongodbTransaction,
        lookupTrans
          (receivedMongodbRequest (receivedMongodbRequest st r1) r2).transactionsMap
          r2.TcpTuple = some t ∧
        t.method = r2.method ∧ t.event = r2.event ∧ t.ts = r2.Ts ∧
        t.cmdline = r2.CmdlineTuple ∧
        t.Src = (requestEndpoints r2).1 ∧ t.Dst = (requestEndpoints r2).2 ∧
        t.Mongodb = some [] ∧
        t.timer = some (receivedMongodbRequest st r1).nextTimer) ∧
      (receivedMongodbRequest (receivedMongodbRequest st r1) r2).warnings =
        (receivedMongodbRequest st r1).warnings ++
          ["Two requests without a Response. Dropping old request"] ∧
      (receivedMongodbRequest st r1).nextTimer ≠ st.nextTimer ∧
      (∀ a ∈ (receivedMongodbRequest (receivedMongodbRequest st r1) r2).armed,
        a.1 ≠ st.nextTimer) ∧
      (∃ a ∈ (receivedMongodbRequest (receivedMongodbRequest st r1) r2).armed,
        a.1 = (receivedMongodbRequest st r1).nextTimer)) := by
  constructor
  · exact reachable_nodupKeys
  intro st r1 r2 ht
  have hlook : lookupTrans (receivedMongodbRequest st r1).transactionsMap r2.TcpTuple =
      some (requestTrans (requestBase st r1) r1 st.nextTimer) := by
    rw [ht]
    exact receivedMongodbRequest_lookup st r1
  have hbase : requestBase (receivedMongodbRequest st r1) r2 =
      requestTrans (requestBase st r1) r1 st.nextTimer := by
    unfold requestBase
    rw [hlook]
    rfl
  refine ⟨?_, ?_, ?_, ?_, ?_⟩
  · exact ⟨requestTrans (requestBase (receivedMongodbRequest st r1) r2) r2
        (receivedMongodbRequest st r1).nextTimer,
      receivedMongodbRequest_lookup (receivedMongodbRequest st r1) r2,
      rfl, rfl, rfl, rfl, rfl, rfl, rfl, rfl⟩
  · show requestWarnings (receivedMongodbRequest st r1) r2 = _
    unfold requestWarnings
    rw [hlook]
    rfl
  · show st.nextTimer + 1 ≠ st.nextTimer
    omega
  · intro a ha
    have harm : (receivedMongodbRequest (receivedMongodbRequest st r1) r2).armed =
        (receivedMongodbRequest st r1).armed.filter
            (fun b => !(decide (b.1 = st.nextTimer))) ++
          [((receivedMongodbRequest st r1).nextTimer, TransactionTimeout,
            requestTrans (requestBase (receivedMongodbRequest st r1) r2) r2
              (receivedMongodbRequest st r1).nextTimer)] := by
      show stopTimer (receivedMongodbRequest st r1).armed
          (requestBase (receivedMongodbRequest st r1) r2).timer ++ _ = _
      rw [hbase]
      rfl
    rw [harm] at ha
    rcases List.mem_append.1 ha with hx | hx
    · have hpa := List.of_mem_filter hx
      simpa using hpa
    · rw [List.mem_singleton] at hx
      subst hx
      show st.nextTimer + 1 ≠ st.nextTimer
      omega
  · exact ⟨((receivedMongodbRequest st r1).nextTimer, TransactionTimeout,
        requestTrans (requestBase (receivedMongodbRequest st r1) r2) r2
          (receivedMongodbRequest st r1).nextTimer),
      List.mem_append_right _ (List.mem_singleton.2 rfl), rfl⟩

/-- First request of the C2 witness. -/
def reqW2a : MongodbMessage := sampleMsg 0 false "insert" "" [("x", MVal.vInt 1)]

/-- Second request of the C2 witness, on the same connection. -/
def reqW2b : MongodbMessage := sampleMsg 1000000 false "update" "" [("y", MVal.vInt 2)]

/-- Witness for C2: the fresh state's table has distinct keys, and two
concrete back-to-back requests on one connection exhibit the replacement,
the warning, and the timer hand-over. -/
theorem mongodb_c2_witness :
    (initState.transactionsMap.map Prod.fst).Nodup ∧
    ((∃ t : MongodbTransaction,
        lookupTrans
          (receivedMongodbRequest (receivedMongodbRequest initState reqW2a)
            reqW2b).transactionsMap reqW2b.TcpTuple = some t ∧
        t.method = reqW2b.method ∧ t.event = reqW2b.event ∧ t.ts = reqW2b.Ts ∧
        t.cmdline = reqW2b.CmdlineTuple ∧
        t.Src = (requestEndpoints reqW2b).1 ∧ t.Dst = (requestEndpoints reqW2b).2 ∧
        t.Mongodb = some [] ∧
        t.timer = some (receivedMongodbRequest initState reqW2a).nextTimer) ∧
      (receivedMongodbRequest (receivedMongodbRequest initState reqW2a) reqW2b).warnings =
        (receivedMongodbRequest initState reqW2a).warnings ++
          ["Two requests without a Response. Dropping old request"] ∧
      (receivedMongodbRequest initState reqW2a).nextTimer ≠ initState.nextTimer ∧
      (∀ a ∈ (receivedMongodbRequest (receivedMongodbRequest initState reqW2a)
          reqW2b).armed, a.1 ≠ initState.nextTimer) ∧
      (∃ a ∈ (receivedMongodbRequest (receivedMongodbRequest initState reqW2a)
          reqW2b).armed, a.1 = (receivedMongodbRequest initState reqW2a).nextTimer)) :=
  ⟨mongodb_c2.1 initState Reachable.init,
   mongodb_c2.2 initState reqW2a reqW2b rfl⟩
